import Mathlib

/-!
Verification of the geosat acquisition and reprojection core.

This file gives a shallow embedding of the parts of `geosat` (src/geosat/io/aws.py,
src/geosat/processing/reproject.py, src/geosat/utils/solar.py) that the claims
C1-C10 are about, and settles each claim against it.

Conventions of the embedding:

* Naive `datetime` values are represented as `Nat`: minutes since 0001-01-01 00:00
  in the proleptic Gregorian calendar (the value is `(toordinal - 1) * 1440 +
  hour * 60 + minute`, matching CPython's `date.toordinal`).  All comparisons the
  source performs on (timezone-stripped) datetimes are `Nat` comparisons here.
* Python's `datetime.strptime` is modelled faithfully down to the regular
  expressions CPython's `_strptime.TimeRE` compiles for the directives the source
  uses (`%Y %m %d %H %M %j`): each directive is an ordered list of alternatives of
  character patterns (digit ranges, plus the literal-space pattern of `%d`'s
  space-padded-day alternative in Python 3.11, which the source requires via
  `from datetime import UTC`), matched with leftmost-alternative preference and
  backtracking.
  The model requires the whole string to be consumed.  For the format strings used
  here this is extensionally the behaviour of CPython: the last directive of every
  format consumes at most 2 characters while every directive consumes at least 1,
  so whenever the regex engine stops at a match that leaves unconverted data (which
  makes `strptime` raise), no fully-consuming match exists at all, and when a fully
  consuming match exists the engine finds exactly the first one in alternative
  order.  After the regex phase the model performs the same calendar validation
  (and, for `%j`, the same day-of-year roll-over through `toordinal`) that
  `datetime` construction performs, including the year range 1..9999.
* Exceptions are modelled with `Option`/`Except`: `none`/`.error` is a raised
  exception.  Remote object-store calls (`s3fs.ls/info/get`), the GDAL resampling
  step and the pyorbital solar-zenith computation are collaborator oracles passed
  in as function arguments, exactly at the interfaces the spec declares them.
* numpy floating-point data is modelled by `FP`: either a finite rational, an
  infinity, or NaN, with the elementwise operations the source uses.  Rounding of
  finite values is not modelled (finite arithmetic is exact rational arithmetic);
  the claims proved below only depend on NaN/sentinel propagation and on exact
  small-integer arithmetic, where float32 is exact.  The result of numpy's cast of
  a non-finite float to int16, which is platform-dependent, is a parameter of the
  model.
-/

namespace Geosat

/-! ## Calendar arithmetic (CPython `datetime` semantics) -/

/-- Gregorian leap-year test, as in CPython `calendar.isleap` / `datetime`. -/
def isLeap (y : Nat) : Bool :=
  (y % 4 == 0 && y % 100 != 0) || y % 400 == 0

/-- Number of days in month `mo` of year `y` (`datetime` validation). -/
def daysInMonth (y mo : Nat) : Nat :=
  if mo = 2 then (if isLeap y then 29 else 28)
  else if mo = 4 ∨ mo = 6 ∨ mo = 9 ∨ mo = 11 then 30
  else 31

/-- Days in year `y` strictly before month `mo` (1-based). -/
def daysBeforeMonth (y mo : Nat) : Nat :=
  (match mo with
   | 1 => 0 | 2 => 31 | 3 => 59 | 4 => 90 | 5 => 120 | 6 => 151
   | 7 => 181 | 8 => 212 | 9 => 243 | 10 => 273 | 11 => 304 | _ => 334)
  + (if isLeap y ∧ 3 ≤ mo then 1 else 0)

/-- Days before January 1 of year `y` in the proleptic Gregorian calendar,
so that `toOrdinal y 1 1 = daysBeforeYear y + 1` equals CPython
`date(y,1,1).toordinal()`. -/
def daysBeforeYear (y : Nat) : Nat :=
  365 * (y - 1) + (y - 1) / 4 - (y - 1) / 100 + (y - 1) / 400

/-- CPython `date(y, mo, d).toordinal()`. -/
def toOrdinal (y mo d : Nat) : Nat :=
  daysBeforeYear y + daysBeforeMonth y mo + d

/-- Naive datetime as minutes since 0001-01-01 00:00. -/
def dtOf (y mo d h mi : Nat) : Nat :=
  (toOrdinal y mo d - 1) * 1440 + h * 60 + mi

/-- Ordinal of 9999-12-31, the largest date CPython `datetime` accepts. -/
def maxOrdinal : Nat := daysBeforeYear 10000

/-- Validation performed by the `datetime(year, month, day, hour, minute)`
constructor, returning the minutes-encoded datetime. -/
def mkYmd (y mo d h mi : Nat) : Option Nat :=
  if 1 ≤ y ∧ y ≤ 9999 ∧ 1 ≤ mo ∧ mo ≤ 12 ∧ 1 ≤ d ∧ d ≤ daysInMonth y mo
     ∧ h ≤ 23 ∧ mi ≤ 59 then
    some (dtOf y mo d h mi)
  else none

/-! ## The CPython `_strptime` regex engine for the directives used by the source

A directive is an ordered list of alternatives; an alternative is a list of
decimal-digit ranges `(lo, hi)`, one per character.  Matching tries the
alternatives in order (leftmost-alternative preference) with full backtracking
across directives, and the overall parse must consume the whole string. -/

/-- Numeric value of a digit character. -/
def digitVal (c : Char) : Nat := c.toNat - 48

/-- ASCII digit test, the `\d` of `_strptime`'s patterns. -/
def isDig (c : Char) : Bool := decide (48 ≤ c.toNat ∧ c.toNat ≤ 57)

/-- One character pattern of a directive alternative: a decimal digit within
a range, or a literal space (the space-padded day of `%d`). -/
inductive Pat where
  | dig : Nat → Nat → Pat
  | sp : Pat
deriving DecidableEq

/-- Match one alternative (a fixed-length list of character patterns) against
the front of the string, accumulating the decimal value of the matched
digits; a matched space contributes nothing to the value, as `int()` strips
leading whitespace from the group. -/
def matchAlt : List Pat → Nat → List Char → Option (Nat × List Char)
  | [], acc, s => some (acc, s)
  | _ :: _, _, [] => none
  | .dig lo hi :: rs, acc, c :: s =>
    if isDig c ∧ lo ≤ digitVal c ∧ digitVal c ≤ hi then
      matchAlt rs (10 * acc + digitVal c) s
    else none
  | .sp :: rs, acc, c :: s =>
    if c = ' ' then matchAlt rs acc s else none

/-- A directive: ordered alternatives of character patterns. -/
abbrev Tok := List (List Pat)

/-- Backtracking matcher for a sequence of directives; the whole input must be
consumed.  Alternatives are tried in order, exactly like the regex engine. -/
def runToks : List Tok → List Char → Option (List Nat)
  | [], s => if s.isEmpty then some [] else none
  | t :: ts, s =>
    (t.filterMap (fun a => matchAlt a 0 s)).findSome?
      (fun vr => (runToks ts vr.2).map (vr.1 :: ·))

/-- Directive `%Y`: `\d\d\d\d`. -/
def tokY : Tok := [[.dig 0 9, .dig 0 9, .dig 0 9, .dig 0 9]]

/-- Directive `%m`: `1[0-2]|0[1-9]|[1-9]`. -/
def tokm : Tok := [[.dig 1 1, .dig 0 2], [.dig 0 0, .dig 1 9], [.dig 1 9]]

/-- Directive `%d` (CPython 3.11, required by the source's
`from datetime import UTC`): `3[0-1]|[1-2]\d|0[1-9]|[1-9]| [1-9]` — the last
alternative is a space-padded single-digit day. -/
def tokd : Tok :=
  [[.dig 3 3, .dig 0 1], [.dig 1 2, .dig 0 9], [.dig 0 0, .dig 1 9], [.dig 1 9],
   [.sp, .dig 1 9]]

/-- Directive `%H`: `2[0-3]|[0-1]\d|\d`. -/
def tokH : Tok := [[.dig 2 2, .dig 0 3], [.dig 0 1, .dig 0 9], [.dig 0 9]]

/-- Directive `%M`: `[0-5]\d|\d`. -/
def tokM : Tok := [[.dig 0 5, .dig 0 9], [.dig 0 9]]

/-- Directive `%j`: `36[0-6]|3[0-5]\d|[1-2]\d\d|0[1-9]\d|00[1-9]|[1-9]\d|0[1-9]|[1-9]`. -/
def tokj : Tok :=
  [[.dig 3 3, .dig 6 6, .dig 0 6], [.dig 3 3, .dig 0 5, .dig 0 9],
   [.dig 1 2, .dig 0 9, .dig 0 9], [.dig 0 0, .dig 1 9, .dig 0 9],
   [.dig 0 0, .dig 0 0, .dig 1 9], [.dig 1 9, .dig 0 9], [.dig 0 0, .dig 1 9],
   [.dig 1 9]]

/-- `datetime.strptime(s, '%Y%m%d%H%M')`. -/
def strpYmdHM (s : List Char) : Option Nat :=
  match runToks [tokY, tokm, tokd, tokH, tokM] s with
  | some [y, mo, d, h, mi] => mkYmd y mo d h mi
  | _ => none

/-- `datetime.strptime(s, '%Y%m%d%H')` (minute defaults to 0). -/
def strpYmdH (s : List Char) : Option Nat :=
  match runToks [tokY, tokm, tokd, tokH] s with
  | some [y, mo, d, h] => mkYmd y mo d h 0
  | _ => none

/-- `datetime.strptime(s, '%Y%m%d')` (hour and minute default to 0). -/
def strpYmd (s : List Char) : Option Nat :=
  match runToks [tokY, tokm, tokd] s with
  | some [y, mo, d] => mkYmd y mo d 0 0
  | _ => none

/-- Datetime built from year/day-of-year/hour/minute the way `_strptime`'s
`%j` handling does: `(year, day_of_year)` goes through
`toordinal`/`fromordinal`, silently rolling over out-of-range days of year;
`datetime` construction then only requires year ≥ 1 (year 0 in `%Y` already
fails when `date(year, 1, 1)` is built) and the rolled ordinal to stay within
year 9999. -/
def mkDateYJ (y j h mi : Nat) : Option Nat :=
  if 1 ≤ y ∧ daysBeforeYear y + j ≤ maxOrdinal then
    some ((daysBeforeYear y + j - 1) * 1440 + h * 60 + mi)
  else none

/-- `datetime.strptime(s, '%Y%j%H%M')`. -/
def strpYjHM (s : List Char) : Option Nat :=
  match runToks [tokY, tokj, tokH, tokM] s with
  | some [y, j, h, mi] => mkDateYJ y j h mi
  | _ => none

/-! ## `GoesAWSDownloader._parse_date` and `_process_date_input` (aws.py 78-143) -/

/-- Decimal digits of a natural number, with enough fuel for structural
recursion (so that the kernel can evaluate it). -/
def natDigitsAux : Nat → Nat → List Char
  | 0, _ => []
  | fuel + 1, n =>
    if n < 10 then [Char.ofNat (48 + n)]
    else natDigitsAux fuel (n / 10) ++ [Char.ofNat (48 + n % 10)]

/-- Python `f"{n}"` for a natural number: decimal digits, no padding. -/
def natDigits (n : Nat) : List Char := natDigitsAux (n + 1) n

/-- Source `_parse_date` (aws.py 116-143): dispatch on the string length; for
lengths 10 and 8 the `all_files` flag is set to `True` BEFORE parsing, so it is
set even when `strptime` subsequently raises.  Returns (parsed datetime or
raised, new `all_files` flag). -/
def parse_date (b : Bool) (s : List Char) : Option Nat × Bool :=
  if s.length = 12 then (strpYmdHM s, b)
  else if s.length = 10 then (strpYmdH s, true)
  else if s.length = 8 then (strpYmd s, true)
  else (none, b)

/-- The `date` argument of the downloader: `None`, a string, a two-element
list/tuple, or anything else (which raises). -/
inductive DateInputM where
  | noneI : DateInputM
  | strI : List Char → DateInputM
  | pairI : List Char → List Char → DateInputM
  | otherI : DateInputM
deriving DecidableEq

/-- Mutable attributes of `GoesAWSDownloader` other than the date window. -/
structure ResolverState where
  all_files : Bool
  workers : Nat
  satellite : Nat
  product : List Char
deriving DecidableEq

/-- Source `date is None` branch: `now - 12 minutes`, minute floored to the
10-minute boundary, seconds and microseconds zeroed (`now` is already in
minutes here). -/
def nowFloored (now : Nat) : Nat :=
  let t := now - 12
  t - t % 60 % 10

/-- Source `_process_date_input` (aws.py 78-114) as explicit state passing over
the resolver state.  The result is `(window-or-raised, post-state)`; the
post-state records the `all_files` mutations `_parse_date` performs even on the
paths that raise. -/
def process_date_input (st : ResolverState) (d : DateInputM) (now : Nat) :
    Except Unit (Nat × Nat) × ResolverState :=
  match d with
  | .noneI => (.ok (nowFloored now, nowFloored now), st)
  | .strI s =>
    let r := parse_date st.all_files s
    let st' := { st with all_files := r.2 }
    match r.1 with
    | none => (.error (), st')
    | some dt => (.ok (dt, dt), st')
  | .pairI s1 s2 =>
    let r1 := parse_date st.all_files s1
    match r1.1 with
    | none => (.error (), { st with all_files := r1.2 })
    | some d1 =>
      let r2 := parse_date r1.2 s2
      let st' := { st with all_files := r2.2 }
      match r2.1 with
      | none => (.error (), st')
      | some d2 => if d2 < d1 then (.error (), st') else (.ok (d1, d2), st')
  | .otherI => (.error (), st)

/-! ## `GoesAWSDownloader.filter_files` (aws.py 173-216) -/

/-- Does `pat` occur at the head of `s`? -/
def startsWith : List Char → List Char → Bool
  | [], _ => true
  | _ :: _, [] => false
  | p :: ps, c :: cs => p == c && startsWith ps cs

/-- Substring containment, the semantics of
`numpy.core.defchararray.find(file, pat) != -1`. -/
def containsSub (pat : List Char) : List Char → Bool
  | [] => pat.isEmpty
  | c :: rest => startsWith pat (c :: rest) || containsSub pat rest

/-- Read exactly `k` digit characters, returning their decimal value (the
`int()` of a regex group of `k` digits). -/
def takeDigs : Nat → Nat → List Char → Option (Nat × List Char)
  | 0, acc, s => some (acc, s)
  | _ + 1, _, [] => none
  | k + 1, acc, c :: s =>
    if isDig c then takeDigs k (10 * acc + digitVal c) s else none

/-- Try to match `_s(\d{4})(\d{3})(\d{2})(\d{2})(\d{2})` at the head of the
string, returning the five integer groups. -/
def tsHere : List Char → Option (Nat × Nat × Nat × Nat × Nat)
  | '_' :: 's' :: rest =>
    match takeDigs 4 0 rest with
    | none => none
    | some (y, r1) =>
      match takeDigs 3 0 r1 with
      | none => none
      | some (j, r2) =>
        match takeDigs 2 0 r2 with
        | none => none
        | some (h, r3) =>
          match takeDigs 2 0 r3 with
          | none => none
          | some (mi, r4) =>
            match takeDigs 2 0 r4 with
            | none => none
            | some (sec, _) => some (y, j, h, mi, sec)
  | _ => none

/-- Source `re.search(r'_s(\d{4})(\d{3})(\d{2})(\d{2})(\d{2})', file)`:
leftmost match. -/
def scanTS : List Char → Option (Nat × Nat × Nat × Nat × Nat)
  | [] => none
  | c :: rest =>
    match tsHere (c :: rest) with
    | some g => some g
    | none => scanTS rest

/-- Per-file body of the `filter_files` timestamp loop (aws.py 203-214).
`some b` means the file is kept (`b = true`) or dropped; `none` means the loop
raises (`strptime` of the unpadded field concatenation fails, the rolled date
falls outside `datetime`'s year range, or `% interval` divides by zero). -/
def timeKeep (sd ed interval : Nat) (f : List Char) : Option Bool :=
  match scanTS f with
  | none => some false
  | some (y, j, h, mi, _) =>
    match strpYjHM (natDigits y ++ natDigits j ++ natDigits h ++ natDigits mi) with
    | none => none
    | some dt =>
      if sd ≤ dt ∧ dt ≤ ed then
        if interval = 0 then none
        else some (decide ((h * 60 + mi) % interval = 0))
      else some false

/-- The timestamp loop of `filter_files`: processes files in order, appending
kept ones; a raising iteration aborts the whole call. -/
def timeFilter (sd ed interval : Nat) : List (List Char) → Option (List (List Char))
  | [] => some []
  | f :: fs =>
    match timeKeep sd ed interval f with
    | none => none
    | some b =>
      match timeFilter sd ed interval fs with
      | none => none
      | some r => some (if b then f :: r else r)

/-- Source `filter_files` (aws.py 173-216).  First the pattern phase: with a
pattern list, `files` is built by extending, for each pattern in order, with
the files containing that pattern (an entry matching several patterns is added
once per pattern); with `None`, all files are taken.  Then the timestamp
phase. -/
def filter_files (all_files : List (List Char)) (pattern : Option (List (List Char)))
    (interval sd ed : Nat) : Option (List (List Char)) :=
  let files := match pattern with
    | none => all_files
    | some ps => ps.foldl (fun acc p => acc ++ all_files.filter (fun f => containsSub p f)) []
  timeFilter sd ed interval files

/-- The keep-predicate of the timestamp phase on entries whose processing does
not raise: `timeKeep` read as a Boolean. -/
def keepB (sd ed interval : Nat) (f : List Char) : Bool :=
  (timeKeep sd ed interval f).getD false

/-- Modelled from the claim C1 (the spec's description of filtering): keep an
entry iff its key contains at least one pattern, its embedded
`_sYYYYDDDHHMMSS` timestamp parses (fields read as given) to an acquisition
time within `[sd, ed]`, and `hour * 60 + minute` is divisible by the
interval. -/
def claimKeep (ps : List (List Char)) (interval sd ed : Nat) (f : List Char) : Bool :=
  ps.any (fun p => containsSub p f) &&
  match scanTS f with
  | none => false
  | some (y, j, h, mi, _) =>
    match mkDateYJ y j h mi with
    | none => false
    | some dt => decide (sd ≤ dt ∧ dt ≤ ed) && decide ((h * 60 + mi) % interval = 0)

/-- Modelled from the claim C1: the filter result the claim describes — the
kept entries in listing order, each exactly once. -/
def filterSpecC1 (all_files ps : List (List Char)) (interval sd ed : Nat) :
    List (List Char) :=
  all_files.filter (claimKeep ps interval sd ed)

/-! ## `GoesAWSDownloader.list_available_files` (aws.py 145-171) -/

/-- The hourly loop bounds: `current_date` starts at `start_date` and advances
by one hour while `current_date <= end_date`. -/
def hoursFrom (sd ed : Nat) : List Nat :=
  if sd ≤ ed then (List.range ((ed - sd) / 60 + 1)).map (fun k => sd + 60 * k)
  else []

/-- An hourly listing that raised or returned nothing contributes no files. -/
def errToEmpty : Except Unit (List (List Char)) → List (List Char)
  | .ok l => l
  | .error _ => []

/-- Source `list_available_files`.  `ls` is the `s3fs.ls` collaborator, keyed
by the loop's `current_date` (the remote prefix is the fixed bucket/product
path plus `%Y/%j/%H` of that datetime).  Returns the listing (`none` is the
`return None` failure path, taken with a printed error when `start_date` is in
the future) together with the trace of remote calls made. -/
def list_available_files (now sd ed : Nat)
    (ls : Nat → Except Unit (List (List Char))) :
    Option (List (List Char)) × List Nat :=
  if now < sd then (none, [])
  else (some ((hoursFrom sd ed).flatMap (fun h => errToEmpty (ls h))), hoursFrom sd ed)

/-! ## `GoesAWSDownloader.download` and `get_files` (aws.py 218-277) -/

/-- Collaborator state for one fetch batch: the local destination directory and
the remote object store.  `localSize k` is the size of the already-present
destination file for key `k` (`none`: the file does not exist); `remoteInfo k`
is `fs.info(k)["size"]` (`none`: the call raises); `getOk k` tells whether
`fs.get(k, ...)` succeeds. -/
structure FetchEnv where
  localSize : List Char → Option Nat
  remoteInfo : List Char → Option Nat
  getOk : List Char → Bool

/-- Observable outcome of one `download` call. -/
inductive FetchOutcome where
  /-- The file exists, is complete, and is skipped (`[ COMPLETE ]`, returns `None`). -/
  | skippedComplete : FetchOutcome
  /-- `fs.get` succeeded (`[ NEW ]`, returns the local path). -/
  | fetched : FetchOutcome
  /-- `fs.get` raised; caught inside `download` (`[ ERROR ]`, returns `None`). -/
  | failed : FetchOutcome
  /-- `fs.info` raised in the completeness check, which is outside the
  `try`: `download` itself raises. -/
  | raisedInfo : FetchOutcome
deriving DecidableEq

/-- Source `download` (aws.py 218-253): the outcome together with the number of
`fs.get` transfer calls performed (0 or 1). -/
def download (env : FetchEnv) (force : Bool) (k : List Char) : FetchOutcome × Nat :=
  match env.localSize k, force with
  | some lsz, false =>
    match env.remoteInfo k with
    | none => (.raisedInfo, 0)
    | some asz =>
      if asz ≤ lsz then (.skippedComplete, 0)
      else if env.getOk k then (.fetched, 1) else (.failed, 1)
  | _, _ => if env.getOk k then (.fetched, 1) else (.failed, 1)

/-- Source `get_files` (aws.py 255-277).  One task per submitted filename; the
`as_completed` loop consumes each task's result exactly once, in a completion
order modelled by the caller-supplied permutation `order` of the submitted
list; `future.result()` re-raises a `download` exception, which the loop
catches and logs, so every task is consumed and the batch never aborts.
Returns the per-task outcomes in completion order and the total number of
transfer calls; the Python function itself returns `None`. -/
def get_files (env : FetchEnv) (order : List (List Char)) :
    List (List Char × FetchOutcome) × Nat :=
  (order.map (fun k => (k, (download env false k).1)),
   (order.map (fun k => (download env false k).2)).sum)

/-! ## numpy floating-point values, `solar.py` and `reproject.py` -/

/-- A numpy floating-point value: finite (exact rational in this model),
infinite, or NaN. -/
inductive FP where
  | nan : FP
  | inf : Bool → FP
  | fin : ℚ → FP
deriving DecidableEq

/-- Elementwise numpy multiplication. -/
def fpMul : FP → FP → FP
  | .nan, _ => .nan
  | _, .nan => .nan
  | .inf s, .inf t => .inf (s == t)
  | .inf s, .fin q => if q = 0 then .nan else .inf (s == decide (0 < q))
  | .fin q, .inf s => if q = 0 then .nan else .inf (s == decide (0 < q))
  | .fin a, .fin b => .fin (a * b)

/-- Elementwise numpy addition. -/
def fpAdd : FP → FP → FP
  | .nan, _ => .nan
  | _, .nan => .nan
  | .inf s, .inf t => if s = t then .inf s else .nan
  | .inf s, .fin _ => .inf s
  | .fin _, .inf s => .inf s
  | .fin a, .fin b => .fin (a + b)

/-- Numpy negation. -/
def fpNeg : FP → FP
  | .nan => .nan
  | .inf s => .inf (!s)
  | .fin q => .fin (-q)

/-- Elementwise numpy subtraction. -/
def fpSub (a b : FP) : FP := fpAdd a (fpNeg b)

/-- Elementwise numpy division (`0/0` and `inf/inf` are NaN, `x/0` with
`x ≠ 0` is a signed infinity, division by NaN is NaN). -/
def fpDiv : FP → FP → FP
  | .nan, _ => .nan
  | _, .nan => .nan
  | .inf _, .inf _ => .nan
  | .inf s, .fin q => .inf (s == decide (0 ≤ q))
  | .fin _, .inf _ => .fin 0
  | .fin a, .fin b =>
    if b = 0 then (if a = 0 then .nan else .inf (decide (0 < a)))
    else .fin (a / b)

/-- Elementwise `np.clip(x, 0, 1)`; NaN propagates. -/
def fpClip01 : FP → FP
  | .nan => .nan
  | .inf s => if s then .fin 1 else .fin 0
  | .fin q => .fin (min (max q 0) 1)

/-- Truncation toward zero of a rational (C float-to-integer conversion). -/
def ratTrunc (q : ℚ) : Int :=
  if 0 ≤ q then ⌊q⌋ else -⌊-q⌋

/-- Wrap an integer into the int16 range. -/
def i16wrap (n : Int) : Int := (n + 32768) % 65536 - 32768

/-- Oracles for the numpy operations whose results the model leaves abstract:
`np.log` on floats, the float16 rounding of `astype(np.float16)`, the
platform-dependent integer results of casting non-finite floats with
`astype(np.int16)` / `astype(np.uint8)`. -/
structure NumEnv where
  logFn : FP → FP
  f16 : FP → FP
  i16nan : Int
  i16infP : Int
  i16infN : Int
  u8nan : Int

/-- Value of `astype(np.int16)` on one element (finite values truncate toward
zero and wrap; non-finite values give the platform-dependent constants). -/
def castI16 (env : NumEnv) : FP → Int
  | .nan => env.i16nan
  | .inf s => if s then env.i16infP else env.i16infN
  | .fin q => i16wrap (ratTrunc q)

/-- The int16 array re-read as floats (int16 values are exact in float32). -/
def castI16fp (env : NumEnv) (x : FP) : FP := .fin ((castI16 env x : Int) : ℚ)

/-- Value of `astype(np.uint8)` on one element. -/
def castU8 (env : NumEnv) : FP → Int
  | .nan => env.u8nan
  | .inf _ => env.u8nan
  | .fin q => (ratTrunc q) % 256

/-- The uint8 array re-read as floats. -/
def castU8fp (env : NumEnv) (x : FP) : FP := .fin ((castU8 env x : Int) : ℚ)

/-- Per-scene data `reproject.py` reads from the NetCDF file: the band
identifier `band_id[0]`, the calibration coefficients, and (for the visible
correction) the per-pixel solar-zenith cosine grid `np.cos(sun_zenith_angle *
pi / 180)` delivered by the pyorbital collaborator over the lon/lat mesh of
the target extent (solar.py 12-30 and 46). -/
structure Scene where
  band : Int
  kappa : FP
  fk1 : FP
  fk2 : FP
  bc1 : FP
  bc2 : FP
  cosRaw : Nat → Nat → ℚ

/-- Source `calculate_cos_theta` (solar.py 32-49): pixels whose solar-zenith
cosine is below `MinCosTheta = 0.019` are set to NaN. -/
def calculate_cos_theta (sc : Scene) (i j : Nat) : FP :=
  if sc.cosRaw i j < 19 / 1000 then .nan else .fin (sc.cosRaw i j)

/-- Source `_process_radiance` (reproject.py 183-207), elementwise on the
grid.  Reflective bands (`band in range(1, 7)`): multiply by `kappa0`, divide
by the thresholded zenith cosine, clip to [0, 1], scale to percent, cast to
int16.  Emissive bands (`band in range(7, 17)`): Planck inversion
`(fk2 / log(fk1 / L + 1) - bc1) / bc2` cast to float16.  Any other band id:
the data is returned unmodified. -/
def process_radiance (env : NumEnv) (sc : Scene) (data : Nat → Nat → FP) :
    Nat → Nat → FP :=
  if 1 ≤ sc.band ∧ sc.band < 7 then
    fun i j =>
      castI16fp env
        (fpMul (fpClip01 (fpDiv (fpMul sc.kappa (data i j)) (calculate_cos_theta sc i j)))
          (.fin 100))
  else if 7 ≤ sc.band ∧ sc.band < 17 then
    fun i j =>
      env.f16
        (fpDiv (fpSub (fpDiv sc.fk2 (env.logFn (fpAdd (fpDiv sc.fk1 (data i j)) (.fin 1))))
            sc.bc1)
          sc.bc2)
  else data

/-- Source `_process_cmi` (reproject.py 209-219): reflective bands are scaled
by 100 and cast to uint8, emissive bands cast to float16, others pass
through. -/
def process_cmi (env : NumEnv) (sc : Scene) (data : Nat → Nat → FP) :
    Nat → Nat → FP :=
  if 1 ≤ sc.band ∧ sc.band < 7 then
    fun i j => castU8fp env (fpMul (data i j) (.fin 100))
  else if 7 ≤ sc.band ∧ sc.band < 17 then
    fun i j => env.f16 (data i j)
  else data

/-- Source `reproject` (reproject.py 92-181), from the point where the
resampled raster exists.  The GDAL open/resample steps are the collaborator
producing `resampled` (the float32 grid `grid.ReadAsArray()` holds after
`gdal.ReprojectImage`); `meta` is the pair
`(metadata[variable + '#scale_factor'], metadata[variable + '#add_offset'])`
when both are present.  Scale/offset resolution: unity for `DQF`, otherwise
from `meta`, raising (`float(None)`) when absent.  Then dequantize
`data * scale + offset`, apply the radiometric correction for `Rad`, the CMI
correction for `CMI`, and return the data grid. -/
def reproject (env : NumEnv) (sc : Scene) (vname : List Char)
    (meta : Option (ℚ × ℚ)) (resampled : Nat → Nat → ℚ) :
    Option (Nat → Nat → FP) :=
  let so : Option (ℚ × ℚ) :=
    if vname = ("DQF".toList) then some (1, 0) else meta
  match so with
  | none => none
  | some (scale, offset) =>
    let data : Nat → Nat → FP :=
      fun i j => fpAdd (fpMul (.fin (resampled i j)) (.fin scale)) (.fin offset)
    some
      (if vname = ("Rad".toList) then process_radiance env sc data
       else if vname = ("CMI".toList) then process_cmi env sc data
       else data)

/-! ## Helper lemmas -/

/-- Division by NaN yields NaN for every numpy value. -/
theorem fpDiv_nan (x : FP) : fpDiv x .nan = .nan := by
  cases x <;> rfl

/-! ## Lemmas about the strptime engine (for C9) -/

/-- C2: if for every requested entry the destination file exists, force is
off, and the local size is at least the remote object's reported size, then
every entry of the batch is skipped as complete and zero transfer calls are
performed, for every completion order. -/
theorem claim2_all_complete_skips_all (env : FetchEnv) (files order : List (List Char))
    (hperm : order.Perm files)
    (hdone : ∀ k ∈ files, ∃ ls rs,
      env.localSize k = some ls ∧ env.remoteInfo k = some rs ∧ rs ≤ ls) :
    (∀ p ∈ (get_files env order).1, p.2 = FetchOutcome.skippedComplete)
    ∧ (get_files env order).2 = 0 := by
  have hdl : ∀ k ∈ order, download env false k = (FetchOutcome.skippedComplete, 0) := by
    intro k hk
    obtain ⟨ls, rs, hls, hrs, hle⟩ := hdone k (hperm.mem_iff.mp hk)
    simp [download, hls, hrs, hle]
  constructor
  · intro p hp
    obtain ⟨k, hk, rfl⟩ := List.mem_map.mp hp
    simp [hdl k hk]
  · apply List.sum_eq_zero
    intro x hx
    obtain ⟨k, hk, rfl⟩ := List.mem_map.mp hx
    simp [hdl k hk]

/-- C2 witness: a concrete one-entry batch where the file is already complete
is entirely skipped with zero transfers. -/
theorem claim2_witness :
    (∀ p ∈ (get_files ⟨fun _ => some 5, fun _ => some 5, fun _ => true⟩
        [("a.nc".toList)]).1, p.2 = FetchOutcome.skippedComplete)
    ∧ (get_files ⟨fun _ => some 5, fun _ => some 5, fun _ => true⟩
        [("a.nc".toList)]).2 = 0 :=
  claim2_all_complete_skips_all ⟨fun _ => some 5, fun _ => some 5, fun _ => true⟩
    [("a.nc".toList)] [("a.nc".toList)] (List.Perm.refl _)
    (by intro k hk; exact ⟨5, 5, rfl, rfl, le_refl 5⟩)

/-- C7: in the concurrent batch fetch, whatever the completion order, every
submitted entry is consumed exactly once (the keys of the result sequence are
a permutation of the submitted list, one result per entry), and each entry's
outcome is its own `download` outcome — failures, including the re-raised
`fs.info` exception, are caught per entry and never remove or affect another
entry's result. -/
theorem claim7_failures_isolated (env : FetchEnv) (files order : List (List Char))
    (hperm : order.Perm files) :
    ((get_files env order).1.map Prod.fst).Perm files
    ∧ (get_files env order).1.length = files.length
    ∧ ∀ k st, (k, st) ∈ (get_files env order).1 → st = (download env false k).1 := by
  refine ⟨?_, ?_, ?_⟩
  · have : (get_files env order).1.map Prod.fst = order := by
      simp [get_files, List.map_map, Function.comp_def]
    rw [this]; exact hperm
  · simp [get_files, hperm.length_eq]
  · intro k st hmem
    simp only [get_files, List.mem_map] at hmem
    obtain ⟨a, _, ha⟩ := hmem
    cases ha
    rfl

/-- C7 witness: a concrete two-entry batch in which one entry's transfer fails
and the other's completeness check raises still yields one result per entry. -/
theorem claim7_witness :
    (((get_files ⟨fun _ => none, fun _ => none, fun _ => false⟩
        [("a.nc".toList), ("b.nc".toList)]).1.map Prod.fst).Perm
      [("b.nc".toList), ("a.nc".toList)])
    ∧ (get_files ⟨fun _ => none, fun _ => none, fun _ => false⟩
        [("a.nc".toList), ("b.nc".toList)]).1.length =
        ([("b.nc".toList), ("a.nc".toList)] : List (List Char)).length
    ∧ ∀ k st, (k, st) ∈ (get_files ⟨fun _ => none, fun _ => none, fun _ => false⟩
        [("a.nc".toList), ("b.nc".toList)]).1 →
        st = (download ⟨fun _ => none, fun _ => none, fun _ => false⟩ false k).1 :=
  claim7_failures_isolated ⟨fun _ => none, fun _ => none, fun _ => false⟩
    [("b.nc".toList), ("a.nc".toList)] [("a.nc".toList), ("b.nc".toList)]
    (List.Perm.swap _ _ _)

/-- C8: the listing returns its failure sentinel (`None`, with a printed
error) exactly when the window's start is strictly in the future relative to
the current UTC time; in that case no remote listing call has been made; and
for every listing oracle the result is unchanged when each raising or empty
per-hour call is replaced by an empty successful one — per-hour failures are
absorbed, never fatal. -/
theorem claim8_future_only_failure (now sd ed : Nat)
    (ls : Nat → Except Unit (List (List Char))) :
    ((list_available_files now sd ed ls).1 = none ↔ now < sd)
    ∧ (now < sd → (list_available_files now sd ed ls).2 = [])
    ∧ (list_available_files now sd ed ls).1 =
        (list_available_files now sd ed (fun h => .ok (errToEmpty (ls h)))).1 := by
  refine ⟨?_, ?_, rfl⟩ <;> by_cases h : now < sd <;> simp [list_available_files, h]

/-- C8 witness: with the window start one minute in the future the listing
fails having made no remote call, and with it in the past the failure
equivalence still holds. -/
theorem claim8_witness :
    ((list_available_files 100 101 101 (fun _ => .error ())).1 = none ↔ 100 < 101)
    ∧ (100 < 101 → (list_available_files 100 101 101 (fun _ => .error ())).2 = [])
    ∧ (list_available_files 100 101 101 (fun _ => .error ())).1 =
        (list_available_files 100 101 101
          (fun h => .ok (errToEmpty ((fun _ => .error ()) h)))).1 :=
  claim8_future_only_failure 100 101 101 (fun _ => .error ())

/-! ## Claims about the radiometric pipeline (C3, C4, C5) -/

/-- C3: for a reflective band (1-6), if every pixel's solar-zenith cosine is
below the 0.019 threshold, every pixel of the radiometric correction equals
the cast of the propagated NaN sentinel — the single platform no-data value
`astype(np.int16)` produces for NaN — whatever the radiance data. -/
theorem claim3_all_night_is_sentinel (env : NumEnv) (sc : Scene)
    (data : Nat → Nat → FP) (h1 : 1 ≤ sc.band) (h7 : sc.band < 7)
    (hcos : ∀ i j, sc.cosRaw i j < 19 / 1000) :
    ∀ i j, process_radiance env sc data i j = .fin ((env.i16nan : Int) : ℚ) := by
  intro i j
  have hb : 1 ≤ sc.band ∧ sc.band < 7 := ⟨h1, h7⟩
  simp only [process_radiance, if_pos hb]
  have hc : calculate_cos_theta sc i j = .nan := by
    simp [calculate_cos_theta, hcos i j]
  rw [hc, fpDiv_nan]
  rfl

/-- C3 witness: a concrete fully-night scene (cosine 0 everywhere, band 2)
maps a finite radiance pixel to the int16 NaN-cast sentinel (on x86 numpy,
-32768). -/
theorem claim3_witness :
    process_radiance ⟨fun x => x, fun x => x, -32768, 32767, -32768, 0⟩
      ⟨2, .fin 1, .fin 0, .fin 0, .fin 0, .fin 0, fun _ _ => 0⟩
      (fun _ _ => .fin 5) 0 0 = .fin (-32768) := by
  have h := claim3_all_night_is_sentinel
    ⟨fun x => x, fun x => x, -32768, 32767, -32768, 0⟩
    ⟨2, .fin 1, .fin 0, .fin 0, .fin 0, .fin 0, fun _ _ => 0⟩
    (fun _ _ => .fin 5) (by decide) (by decide)
    (fun i j => by norm_num) 0 0
  rw [h]
  norm_num

/-- C4: for every emissive band (7-16) the radiometric correction of `Rad`
computes, pixelwise, exactly `(fk2 / log(fk1 / L + 1) - bc1) / bc2` from the
scene's Planck coefficients and returns it through the float16 cast; and any
band id outside 1-16 passes the data through unmodified. -/
theorem claim4_emissive_planck (env : NumEnv) (sc : Scene) (data : Nat → Nat → FP) :
    (7 ≤ sc.band → sc.band < 17 →
      ∀ i j, process_radiance env sc data i j =
        env.f16 (fpDiv (fpSub (fpDiv sc.fk2
            (env.logFn (fpAdd (fpDiv sc.fk1 (data i j)) (.fin 1)))) sc.bc1) sc.bc2))
    ∧ ((sc.band < 1 ∨ 17 ≤ sc.band) → process_radiance env sc data = data) := by
  constructor
  · intro h7 h17 i j
    have n1 : ¬(1 ≤ sc.band ∧ sc.band < 7) := by omega
    have p2 : 7 ≤ sc.band ∧ sc.band < 17 := ⟨h7, h17⟩
    simp only [process_radiance, if_neg n1, if_pos p2]
  · intro h
    have n1 : ¬(1 ≤ sc.band ∧ sc.band < 7) := by omega
    have n2 : ¬(7 ≤ sc.band ∧ sc.band < 17) := by omega
    simp only [process_radiance, if_neg n1, if_neg n2]

/-- C4 witness: band 8 with unit coefficients and radiance 2 gives
`(1 / log(1/2 + 1) - 1) / 1`, which with the identity oracles evaluates to
-1/3; and band 20 passes through. -/
theorem claim4_witness :
    process_radiance ⟨fun x => x, fun x => x, 0, 0, 0, 0⟩
      ⟨8, .fin 1, .fin 1, .fin 1, .fin 1, .fin 1, fun _ _ => 0⟩
      (fun _ _ => .fin 2) 0 0 = .fin (-1/3)
    ∧ process_radiance ⟨fun x => x, fun x => x, 0, 0, 0, 0⟩
      ⟨20, .fin 1, .fin 1, .fin 1, .fin 1, .fin 1, fun _ _ => 0⟩
      (fun _ _ => .fin 2) = (fun _ _ => .fin 2) := by
  constructor
  · have h := (claim4_emissive_planck ⟨fun x => x, fun x => x, 0, 0, 0, 0⟩
      ⟨8, .fin 1, .fin 1, .fin 1, .fin 1, .fin 1, fun _ _ => 0⟩
      (fun _ _ => .fin 2)).1 (by decide) (by decide) 0 0
    rw [h]
    norm_num [fpDiv, fpAdd, fpSub, fpNeg]
  · exact (claim4_emissive_planck ⟨fun x => x, fun x => x, 0, 0, 0, 0⟩
      ⟨20, .fin 1, .fin 1, .fin 1, .fin 1, .fin 1, fun _ _ => 0⟩
      (fun _ _ => .fin 2)).2 (by decide)

/-- C5: reprojection dequantizes the resampled raster pixelwise as
`data * scale + offset` with the scale/offset pair taken from the variable
metadata (for any variable with no special correction), `DQF` uses unity
scale and zero offset whatever the metadata says and returns the raw values
unchanged, and on the concrete 2x2 raster [[10,20],[30,40]] with scale 2 and
offset 1 dequantization yields [[21,41],[61,81]]. -/
theorem claim5_dequantize (env : NumEnv) (sc : Scene) :
    (∀ (s o : ℚ) (resampled : Nat → Nat → ℚ) (v : List Char),
      v ≠ ("DQF".toList) → v ≠ ("Rad".toList) → v ≠ ("CMI".toList) →
      reproject env sc v (some (s, o)) resampled =
        some (fun i j => .fin (resampled i j * s + o)))
    ∧ ((reproject env sc ("T".toList) (some (2, 1))
        (fun i j => if i = 0 then (if j = 0 then 10 else 20)
                    else (if j = 0 then 30 else 40))).map
        (fun g => (g 0 0, g 0 1, g 1 0, g 1 1)) =
        some (.fin 21, .fin 41, .fin 61, .fin 81))
    ∧ (∀ (meta : Option (ℚ × ℚ)) (resampled : Nat → Nat → ℚ),
        reproject env sc ("DQF".toList) meta resampled =
          some (fun i j => .fin (resampled i j))) := by
  have key : ∀ (s o : ℚ) (resampled : Nat → Nat → ℚ) (v : List Char),
      v ≠ ("DQF".toList) → v ≠ ("Rad".toList) → v ≠ ("CMI".toList) →
      reproject env sc v (some (s, o)) resampled =
        some (fun i j => .fin (resampled i j * s + o)) := by
    intro s o resampled v hD hR hC
    simp only [reproject, if_neg hD, if_neg hR, if_neg hC]
    rfl
  refine ⟨key, ?_, ?_⟩
  · rw [key 2 1 _ ("T".toList) (by decide) (by decide) (by decide)]
    simp only [Option.map_some']
    norm_num
  · intro meta resampled
    have hR : ("DQF".toList) ≠ ("Rad".toList) := by decide
    have hC : ("DQF".toList) ≠ ("CMI".toList) := by decide
    simp only [reproject, if_pos rfl, if_neg hR, if_neg hC]
    refine congrArg some (funext fun i => funext fun j => ?_)
    show FP.fin (resampled i j * 1 + 0) = FP.fin (resampled i j)
    rw [mul_one, add_zero]

/-- C5 witness: a constant raster with scale 2 and offset 1 on an uncorrected
variable dequantizes to `3 * 2 + 1 = 7` everywhere, by the general part of the
claim. -/
theorem claim5_witness :
    reproject ⟨fun x => x, fun x => x, 0, 0, 0, 0⟩
      ⟨2, .fin 1, .fin 0, .fin 0, .fin 0, .fin 0, fun _ _ => 0⟩
      ("T".toList) (some (2, 1)) (fun _ _ => 3) =
      some (fun i j => .fin ((fun _ _ => (3:ℚ)) i j * 2 + 1)) :=
  (claim5_dequantize ⟨fun x => x, fun x => x, 0, 0, 0, 0⟩
    ⟨2, .fin 1, .fin 0, .fin 0, .fin 0, .fin 0, fun _ _ => 0⟩).1
    2 1 (fun _ _ => 3) ("T".toList) (by decide) (by decide) (by decide)

/-! ## Claim C10: state effects of date-window resolution -/

/-- C10 counterexample: resolving the malformed 8-character date "00000000"
raises, yet leaves the resolver in a different state than before the call (the
`all_files` coarseness flag was mutated before `strptime` failed), so
resolution does have a side effect beyond raising on malformed input. -/
theorem claim10_counterexample :
    (process_date_input ⟨false, 6, 16, []⟩ (.strI ("00000000".toList)) 0).1 = .error ()
    ∧ (process_date_input ⟨false, 6, 16, []⟩ (.strI ("00000000".toList)) 0).2 ≠
        ⟨false, 6, 16, []⟩ := by
  constructor
  · rfl
  · decide

/-- C10 amended: date-window resolution is pure state passing whose only state
effect is on the window fields — for every input (including every raising one)
the `workers`, `satellite` and `product` attributes are untouched, and both the
resolved window and the posterior coarseness flag depend on nothing but the
prior flag and the date input; the flag alone may change even on a malformed
length-8/10 input that raises. -/
theorem claim10_frame_and_purity (st st' : ResolverState) (d : DateInputM) (now : Nat) :
    ((process_date_input st d now).2.workers = st.workers
    ∧ (process_date_input st d now).2.satellite = st.satellite
    ∧ (process_date_input st d now).2.product = st.product)
    ∧ (st.all_files = st'.all_files →
        (process_date_input st d now).1 = (process_date_input st' d now).1
        ∧ (process_date_input st d now).2.all_files =
            (process_date_input st' d now).2.all_files) := by
  constructor
  · cases d with
    | noneI => exact ⟨rfl, rfl, rfl⟩
    | strI s =>
      simp only [process_date_input]
      split <;> exact ⟨rfl, rfl, rfl⟩
    | pairI s1 s2 =>
      simp only [process_date_input]
      split
      · exact ⟨rfl, rfl, rfl⟩
      · split
        · exact ⟨rfl, rfl, rfl⟩
        · split <;> exact ⟨rfl, rfl, rfl⟩
    | otherI => exact ⟨rfl, rfl, rfl⟩
  · intro hf
    cases d with
    | noneI => exact ⟨rfl, by simp [process_date_input, hf]⟩
    | strI s =>
      simp only [process_date_input, hf]
      refine ⟨?_, ?_⟩ <;> (split <;> rfl)
    | pairI s1 s2 =>
      simp only [process_date_input, hf]
      refine ⟨?_, ?_⟩ <;>
        (split <;> first
          | rfl
          | (split <;> first | rfl | (split <;> rfl)))
    | otherI => exact ⟨rfl, by simp [process_date_input, hf]⟩

/-! ## Claims C1 and C6: the catalogue filter -/

/-- When no iteration raises, the timestamp loop is the list filter by its
keep-predicate. -/
theorem timeFilter_eq_filter (sd ed i : Nat) :
    ∀ l : List (List Char), (∀ f ∈ l, timeKeep sd ed i f ≠ none) →
      timeFilter sd ed i l = some (l.filter (keepB sd ed i)) := by
  intro l h
  induction l with
  | nil => rfl
  | cons f fs ih =>
    have hf := h f (List.mem_cons_self f fs)
    cases hk : timeKeep sd ed i f with
    | none => exact absurd hk hf
    | some b =>
      have ih' := ih (fun g hg => h g (List.mem_cons_of_mem f hg))
      simp only [timeFilter, hk, ih', List.filter_cons, keepB, Option.getD_some]

/-- Left folding with append, as the pattern loop does, concatenates the
per-pattern selections. -/
theorem foldl_extendAppend {α β : Type} (g : β → List α) :
    ∀ (ps : List β) (acc : List α),
      ps.foldl (fun acc p => acc ++ g p) acc = acc ++ ps.flatMap g := by
  intro ps
  induction ps with
  | nil => intro acc; simp
  | cons p t ih =>
    intro acc
    simp only [List.foldl_cons, List.flatMap_cons, ih, List.append_assoc]

/-- Filtering distributes over a flat map. -/
theorem filter_flatMapG {α β : Type} (q : α → Bool) (g : β → List α) :
    ∀ l : List β, (l.flatMap g).filter q = l.flatMap (fun b => (g b).filter q) := by
  intro l
  induction l with
  | nil => rfl
  | cons b t ih => simp only [List.flatMap_cons, List.filter_append, ih]

/-- Congruence for flat maps, pointwise on members. -/
theorem flatMap_congrG {α β : Type} {f g : β → List α} :
    ∀ {l : List β}, (∀ b ∈ l, f b = g b) → l.flatMap f = l.flatMap g := by
  intro l
  induction l with
  | nil => intro _; rfl
  | cons b t ih =>
    intro h
    simp only [List.flatMap_cons, h b (List.mem_cons_self b t),
      ih (fun x hx => h x (List.mem_cons_of_mem b hx))]

/-- A list with two distinct members has length at least two. -/
theorem two_le_length_of_mem {α : Type} {a b : α} :
    ∀ {l : List α}, a ∈ l → b ∈ l → a ≠ b → 2 ≤ l.length := by
  intro l ha hb hne
  match l with
  | [] => simp at ha
  | [x] =>
    simp only [List.mem_singleton] at ha hb
    exact absurd (ha.trans hb.symm) hne
  | x :: y :: t => simp only [List.length_cons]; omega

/-- A flat map of everywhere-empty selections is empty. -/
theorem flatMap_const_nil {α β : Type} {f : β → List α} :
    ∀ {l : List β}, (∀ b ∈ l, f b = []) → l.flatMap f = [] := by
  intro l h
  induction l with
  | nil => rfl
  | cons b t ih =>
    simp only [List.flatMap_cons, h b (List.mem_cons_self b t), List.nil_append]
    exact ih (fun x hx => h x (List.mem_cons_of_mem b hx))

/-- A flat map that contributes `L` at the unique occurrence of `p` and
nothing elsewhere is `L`. -/
theorem flatMap_ite_count_one {α β : Type} [BEq α] [LawfulBEq α] [DecidableEq α]
    {p : α} {L : List β} :
    ∀ {l : List α}, l.count p = 1 →
      l.flatMap (fun q => if q = p then L else []) = L := by
  intro l h
  induction l with
  | nil => simp at h
  | cons q t ih =>
    by_cases hq : q = p
    · subst hq
      rw [List.count_cons_self] at h
      have ht : q ∉ t := List.count_eq_zero.mp (by omega)
      have hnil : t.flatMap (fun x => if x = q then L else []) = [] :=
        flatMap_const_nil (fun b hb => if_neg (fun hbq : b = q => ht (hbq ▸ hb)))
      simp [hnil]
    · rw [List.count_cons_of_ne (fun hpq => hq hpq.symm) t] at h
      simp [hq, ih h]

/-- Characterization of `filter_files` when no entry raises: with a pattern
list it is the concatenation, pattern by pattern, of the entries containing
that pattern that the timestamp phase keeps; with `None` it is the timestamp
filter alone. -/
theorem filter_files_some_eq (xs ps : List (List Char)) (interval sd ed : Nat)
    (h : ∀ f ∈ xs, timeKeep sd ed interval f ≠ none) :
    filter_files xs (some ps) interval sd ed =
      some (ps.flatMap (fun p =>
        xs.filter (fun f => containsSub p f && keepB sd ed interval f))) := by
  show timeFilter sd ed interval
      (ps.foldl (fun acc p => acc ++ xs.filter (fun f => containsSub p f)) []) = _
  rw [foldl_extendAppend (fun p => xs.filter (fun f => containsSub p f)) ps []]
  rw [List.nil_append]
  have h' : ∀ f ∈ ps.flatMap (fun p => xs.filter (fun f => containsSub p f)),
      timeKeep sd ed interval f ≠ none := by
    intro f hf
    obtain ⟨p, _, hfp⟩ := List.mem_flatMap.mp hf
    exact h f (List.mem_filter.mp hfp).1
  rw [timeFilter_eq_filter sd ed interval _ h']
  rw [filter_flatMapG]
  refine congrArg some (flatMap_congrG (fun p _ => ?_))
  rw [List.filter_filter]
  exact List.filter_congr (fun f _ => Bool.and_comm _ _)

/-- Characterization of `filter_files` with no pattern list. -/
theorem filter_files_none_eq (xs : List (List Char)) (interval sd ed : Nat)
    (h : ∀ f ∈ xs, timeKeep sd ed interval f ≠ none) :
    filter_files xs none interval sd ed = some (xs.filter (keepB sd ed interval)) :=
  timeFilter_eq_filter sd ed interval xs h

/-- C1 counterexample: for the window `2024-01-01 12:00 .. 12:00` and the
file key `x_s2024001120000` — which contains the pattern `_s`, whose embedded
timestamp `2024-001 12:00:00` parses and lies inside the window, and whose
minute 0 is divisible by 10 — the claim's filter keeps the entry, but the
code's `filter_files` drops it: the unpadded re-serialization "20241120" of
the timestamp fields re-parses under `%Y%j%H%M` as day 11, 02:00, outside the
window. -/
theorem claim1_counterexample :
    filter_files [("x_s2024001120000".toList)] (some [("_s".toList)]) 10
        (dtOf 2024 1 1 12 0) (dtOf 2024 1 1 12 0) = some []
    ∧ filterSpecC1 [("x_s2024001120000".toList)] [("_s".toList)] 10
        (dtOf 2024 1 1 12 0) (dtOf 2024 1 1 12 0) = [("x_s2024001120000".toList)] := by
  constructor
  · decide
  · decide

/-- C1 amended: on inputs where no entry makes the timestamp re-parse raise,
`filter_files` with a pattern list returns, for each pattern in order, the
entries containing that pattern (an entry matching several patterns recurs
once per matching pattern, so order is pattern-grouped and entries are not
globally unique) that the timestamp phase keeps — an entry is kept iff the
unpadded re-serialization of its `_s` timestamp fields re-parses under the
backtracking `%Y%j%H%M` format to a time within the window and its original
`hour * 60 + minute` is divisible by the interval; with no pattern list the
result is exactly the kept entries in listing order. -/
theorem claim1_filter_characterization (xs ps : List (List Char)) (interval sd ed : Nat)
    (h : ∀ f ∈ xs, timeKeep sd ed interval f ≠ none) :
    filter_files xs (some ps) interval sd ed =
      some (ps.flatMap (fun p =>
        xs.filter (fun f => containsSub p f && keepB sd ed interval f)))
    ∧ filter_files xs none interval sd ed = some (xs.filter (keepB sd ed interval)) :=
  ⟨filter_files_some_eq xs ps interval sd ed h,
   filter_files_none_eq xs interval sd ed h⟩

/-- C1 witness: the characterization instantiated on a concrete listing with
two patterns and a singleton window. -/
theorem claim1_witness :
    filter_files [("x_s2024100123000".toList), ("y_s2024100123000".toList)]
        (some [("x".toList), ("_s".toList)]) 10
        (dtOf 2024 4 9 12 30) (dtOf 2024 4 9 12 30) =
      some ([("x".toList), ("_s".toList)].flatMap (fun p =>
        [("x_s2024100123000".toList), ("y_s2024100123000".toList)].filter
          (fun f => containsSub p f &&
            keepB (dtOf 2024 4 9 12 30) (dtOf 2024 4 9 12 30) 10 f)))
    ∧ filter_files [("x_s2024100123000".toList), ("y_s2024100123000".toList)] none 10
        (dtOf 2024 4 9 12 30) (dtOf 2024 4 9 12 30) =
      some ([("x_s2024100123000".toList), ("y_s2024100123000".toList)].filter
        (keepB (dtOf 2024 4 9 12 30) (dtOf 2024 4 9 12 30) 10)) :=
  claim1_filter_characterization
    [("x_s2024100123000".toList), ("y_s2024100123000".toList)]
    [("x".toList), ("_s".toList)] 10
    (dtOf 2024 4 9 12 30) (dtOf 2024 4 9 12 30) (by decide)

/-- C6 counterexample: with the two overlapping patterns `X` and `Y`, both
contained in a key that the timestamp phase keeps, one filter pass duplicates
the entry and a second pass with the same arguments duplicates it again, so
filtering is not idempotent. -/
theorem claim6_counterexample :
    (filter_files [("aXbY_s2024100123000".toList)]
        (some [("X".toList), ("Y".toList)]) 10
        (dtOf 2024 4 9 12 30) (dtOf 2024 4 9 12 30)).bind
      (fun r => filter_files r (some [("X".toList), ("Y".toList)]) 10
        (dtOf 2024 4 9 12 30) (dtOf 2024 4 9 12 30)) ≠
    filter_files [("aXbY_s2024100123000".toList)]
        (some [("X".toList), ("Y".toList)]) 10
        (dtOf 2024 4 9 12 30) (dtOf 2024 4 9 12 30)
    ∧ filter_files [("aXbY_s2024100123000".toList)]
        (some [("X".toList), ("Y".toList)]) 10
        (dtOf 2024 4 9 12 30) (dtOf 2024 4 9 12 30) =
      some [("aXbY_s2024100123000".toList), ("aXbY_s2024100123000".toList)] := by
  constructor
  · decide
  · decide

/-- C6 amended: filtering is idempotent provided no entry raises and no
listing entry contains more than one of the patterns (counting patterns with
multiplicity); in particular it is always idempotent with no pattern list. -/
theorem claim6_filter_idempotent (xs : List (List Char))
    (pat : Option (List (List Char))) (interval sd ed : Nat)
    (habort : ∀ f ∈ xs, timeKeep sd ed interval f ≠ none)
    (hdisj : ∀ ps, pat = some ps →
      ∀ f ∈ xs, ps.countP (fun p => containsSub p f) ≤ 1) :
    (filter_files xs pat interval sd ed).bind
      (fun r => filter_files r pat interval sd ed) =
    filter_files xs pat interval sd ed := by
  cases pat with
  | none =>
    rw [filter_files_none_eq xs interval sd ed habort, Option.some_bind]
    have habort' : ∀ f ∈ xs.filter (keepB sd ed interval),
        timeKeep sd ed interval f ≠ none :=
      fun f hf => habort f (List.mem_filter.mp hf).1
    rw [filter_files_none_eq _ interval sd ed habort', List.filter_filter]
    exact congrArg some (List.filter_congr (fun f _ => Bool.and_self _))
  | some ps =>
    have hdisj' := hdisj ps rfl
    rw [filter_files_some_eq xs ps interval sd ed habort, Option.some_bind]
    have hmem : ∀ f ∈ ps.flatMap (fun p =>
        xs.filter (fun f => containsSub p f && keepB sd ed interval f)),
        f ∈ xs ∧ keepB sd ed interval f = true := by
      intro f hf
      obtain ⟨p, _, hfp⟩ := List.mem_flatMap.mp hf
      obtain ⟨hx, hpred⟩ := List.mem_filter.mp hfp
      exact ⟨hx, ((Bool.and_eq_true _ _).mp hpred).2⟩
    have habort' : ∀ f ∈ ps.flatMap (fun p =>
        xs.filter (fun f => containsSub p f && keepB sd ed interval f)),
        timeKeep sd ed interval f ≠ none :=
      fun f hf => habort f (hmem f hf).1
    rw [filter_files_some_eq _ ps interval sd ed habort']
    refine congrArg some (flatMap_congrG (fun p hp => ?_))
    -- drop the keep-conjunct: every entry of the first result is kept again
    have hdrop : (ps.flatMap (fun p =>
          xs.filter (fun f => containsSub p f && keepB sd ed interval f))).filter
        (fun f => containsSub p f && keepB sd ed interval f) =
        (ps.flatMap (fun p =>
          xs.filter (fun f => containsSub p f && keepB sd ed interval f))).filter
        (fun f => containsSub p f) :=
      List.filter_congr (fun f hf => by rw [(hmem f hf).2, Bool.and_true])
    -- second pattern pass over the first result selects exactly the p-group
    have hgroup : ∀ q ∈ ps,
        (xs.filter (fun f => containsSub q f && keepB sd ed interval f)).filter
          (fun f => containsSub p f) =
        (if q = p then
          xs.filter (fun f => containsSub p f && keepB sd ed interval f) else []) := by
      intro q hq
      by_cases hqp : q = p
      · subst hqp
        rw [if_pos rfl]
        exact List.filter_eq_self.mpr (fun f hf =>
          ((Bool.and_eq_true _ _).mp (List.mem_filter.mp hf).2).1)
      · rw [if_neg hqp]
        rw [List.filter_eq_nil_iff]
        intro f hf hcp
        obtain ⟨hx, hpred⟩ := List.mem_filter.mp hf
        have hcq := ((Bool.and_eq_true _ _).mp hpred).1
        have h2 : 2 ≤ (ps.filter (fun x => containsSub x f)).length :=
          two_le_length_of_mem
            (List.mem_filter.mpr ⟨hq, hcq⟩) (List.mem_filter.mpr ⟨hp, hcp⟩) hqp
        have hle := hdisj' f hx
        rw [List.countP_eq_length_filter] at hle
        omega
    rw [hdrop, filter_flatMapG, flatMap_congrG hgroup]
    by_cases hsel : xs.filter (fun f => containsSub p f && keepB sd ed interval f) = []
    · rw [hsel]
      exact flatMap_const_nil (fun q _ => ite_self [])
    · obtain ⟨f0, hf0⟩ := List.exists_mem_of_ne_nil _ hsel
      obtain ⟨hx0, hpred0⟩ := List.mem_filter.mp hf0
      have hc0 := ((Bool.and_eq_true _ _).mp hpred0).1
      have hcount : ps.count p = 1 := by
        have hle1 : ps.count p ≤ ps.countP (fun x => containsSub x f0) := by
          rw [List.count_eq_countP]
          exact List.countP_mono_left (fun x _ hxp => by
            rw [eq_of_beq hxp]; exact hc0)
        have := hdisj' f0 hx0
        have hpos : 0 < ps.count p := List.count_pos_iff.mpr hp
        omega
      exact flatMap_ite_count_one hcount

/-- C6 witness: the amended idempotence instantiated on a concrete listing
whose single entry matches exactly one of the patterns. -/
theorem claim6_witness :
    (filter_files [("aXb_s2024100123000".toList)]
        (some [("X".toList), ("Z".toList)]) 10
        (dtOf 2024 4 9 12 30) (dtOf 2024 4 9 12 30)).bind
      (fun r => filter_files r (some [("X".toList), ("Z".toList)]) 10
        (dtOf 2024 4 9 12 30) (dtOf 2024 4 9 12 30)) =
    filter_files [("aXb_s2024100123000".toList)]
        (some [("X".toList), ("Z".toList)]) 10
        (dtOf 2024 4 9 12 30) (dtOf 2024 4 9 12 30) :=
  claim6_filter_idempotent [("aXb_s2024100123000".toList)]
    (some [("X".toList), ("Z".toList)]) 10
    (dtOf 2024 4 9 12 30) (dtOf 2024 4 9 12 30)
    (by decide)
    (by intro ps hps f hf
        cases hps
        simp only [List.mem_singleton] at hf
        subst hf
        decide)

/-- C10 witness for the amended claim: instantiated at two resolver states
that agree on the flag but differ elsewhere, with a pair date input. -/
theorem claim10_witness :
    ((process_date_input ⟨false, 6, 16, []⟩
        (.pairI ("202401011200".toList) ("202401011300".toList)) 0).2.workers = 6
    ∧ (process_date_input ⟨false, 6, 16, []⟩
        (.pairI ("202401011200".toList) ("202401011300".toList)) 0).2.satellite = 16
    ∧ (process_date_input ⟨false, 6, 16, []⟩
        (.pairI ("202401011200".toList) ("202401011300".toList)) 0).2.product = [])
    ∧ (process_date_input ⟨false, 6, 16, []⟩
        (.pairI ("202401011200".toList) ("202401011300".toList)) 0).1 =
      (process_date_input ⟨false, 8, 18, ("x".toList)⟩
        (.pairI ("202401011200".toList) ("202401011300".toList)) 0).1 := by
  have h := claim10_frame_and_purity ⟨false, 6, 16, []⟩ ⟨false, 8, 18, ("x".toList)⟩
    (.pairI ("202401011200".toList) ("202401011300".toList)) 0
  exact ⟨h.1, (h.2 rfl).1⟩

/-! ## Claim C9: the date-string parser -/

end Geosat
